import Mathlib

/-!
Verification of the generator/validator core of `ser2tcp-tester`
(src/main.rs), a throughput-and-integrity tester for duplex byte
streams.

The embedding models bytes as `Nat` (every byte the program generates
is `0`, and comparisons are element-wise, so the `u8` range plays no
role).  `Generator` mirrors the Rust struct: a FIFO backlog
(`VecDeque<u8>`, front = index 0) modelled as a `List Nat` whose head
is the front of the deque.

`Generator::generate` builds `vec![0u8; 100]`, appends it to the tail
of the queue and returns it.  `Generator::validate` runs
`self.queue.drain(0..data.len())` — which *panics* when
`data.len() > queue.len()` (VecDeque::drain is documented to panic when
the range end exceeds the length) — collects the drained bytes and
compares them to `data`, returning `Ok(())` on equality and
`Err(anyhow!("value mismatch"))` otherwise.  The drain happens before
the comparison, so the bytes are consumed even when validation fails.
`ValidateResult` keeps the three outcomes apart: `ok`, `mismatch`
(an `Err` return, with the already-drained state) and `panic`.
-/

/-- Chunk size of the deterministic pattern: `vec![0_u8; 100]`. -/
def CHUNK_SIZE : Nat := 100

/-- The fixed all-zero chunk produced by `Generator::generate`. -/
def chunk : List Nat := List.replicate CHUNK_SIZE 0

/-- The `Generator` struct of src/main.rs: a FIFO backlog of pending
bytes (`VecDeque<u8>`; list head = deque front). -/
structure Generator where
  queue : List Nat
deriving DecidableEq, Repr

/-- Model of `Generator::create()`: starts with an empty backlog. -/
def Generator.create : Generator := ⟨[]⟩

/-- Model of `Generator::generate`: produce the all-zero 100-byte chunk, append
it to the tail of the backlog, return it. -/
def Generator.generate (g : Generator) : List Nat × Generator :=
  (chunk, ⟨g.queue ++ chunk⟩)

/-- Outcome of `Generator::validate`: `Ok(())`, `Err("value mismatch")`
(with the state after the drain), or a Rust panic from
`drain(0..data.len())` when the backlog is too short. -/
inductive ValidateResult where
  | ok (g : Generator)
  | mismatch (g : Generator)
  | panic
deriving DecidableEq, Repr

/-- Model of `Generator::validate`: drain `data.len()` bytes from the front of
the backlog (panicking when the backlog holds fewer), then compare
them position-for-position with `data`. -/
def Generator.validate (g : Generator) (data : List Nat) : ValidateResult :=
  if data.length ≤ g.queue.length then
    let reference := g.queue.take data.length
    let g' : Generator := ⟨g.queue.drop data.length⟩
    if reference = data then .ok g' else .mismatch g'
  else .panic

/-- The generator state carried by a `ValidateResult`, when the call
did not panic. -/
def ValidateResult.state : ValidateResult → Option Generator
  | .ok g => some g
  | .mismatch g => some g
  | .panic => none

/-- Whether a `ValidateResult` is the success (`Ok(())`) outcome. -/
def ValidateResult.isOk : ValidateResult → Bool
  | .ok _ => true
  | _ => false

/-- One client operation on a `Generator`: a `generate()` call or a
`validate(data)` call. -/
inductive Op where
  | gen
  | val (data : List Nat)

/-- Run a sequence of operations, continuing through both successful
and mismatching `validate` calls (both return to the caller with the
bytes drained); `none` when some `validate` panics, i.e. requests more
bytes than are backlogged. -/
def runSeq : Generator → List Op → Option Generator
  | g, [] => some g
  | g, .gen :: rest => runSeq (g.generate).2 rest
  | g, .val d :: rest =>
    match g.validate d with
    | .ok g' => runSeq g' rest
    | .mismatch g' => runSeq g' rest
    | .panic => none

/-- Run a sequence of operations, requiring every `validate` call to
succeed (`none` on a mismatch or a panic). -/
def runOk : Generator → List Op → Option Generator
  | g, [] => some g
  | g, .gen :: rest => runOk (g.generate).2 rest
  | g, .val d :: rest =>
    match g.validate d with
    | .ok g' => runOk g' rest
    | _ => none

/-- All bytes produced by the `generate()` calls of an operation
sequence, in production order. -/
def producedBytes : List Op → List Nat
  | [] => []
  | .gen :: rest => chunk ++ producedBytes rest
  | .val _ :: rest => producedBytes rest

/-- Total number of bytes consumed by the `validate` calls of an
operation sequence. -/
def validatedLen : List Op → Nat
  | [] => 0
  | .gen :: rest => validatedLen rest
  | .val d :: rest => d.length + validatedLen rest

/-- Fold `validate` over a list of sub-slices, requiring every call to
succeed. -/
def validateAll : Generator → List (List Nat) → Option Generator
  | g, [] => some g
  | g, d :: ds =>
    match g.validate d with
    | .ok g' => validateAll g' ds
    | _ => none

/-! ### Basic facts about `validate` -/

/-- The `validate` call panics exactly when more bytes are supplied than are
backlogged (the `drain` range check). -/
theorem validate_eq_panic_iff (g : Generator) (d : List Nat) :
    g.validate d = .panic ↔ g.queue.length < d.length := by
  unfold Generator.validate
  by_cases h : d.length ≤ g.queue.length
  · simp only [h, if_true]
    constructor
    · intro hc
      by_cases he : g.queue.take d.length = d <;> simp [he] at hc
    · intro hc; omega
  · simp [h]; omega

/-- With enough backlog, `validate` drains and compares: success when
the drained front equals the data, mismatch otherwise. -/
theorem validate_of_le (g : Generator) (d : List Nat)
    (h : d.length ≤ g.queue.length) :
    g.validate d =
      if g.queue.take d.length = d then ValidateResult.ok ⟨g.queue.drop d.length⟩
      else ValidateResult.mismatch ⟨g.queue.drop d.length⟩ := by
  unfold Generator.validate
  simp [h]

/-- With enough backlog, `validate` succeeds iff the supplied bytes
equal the front of the backlog. -/
theorem validate_isOk_iff (g : Generator) (d : List Nat)
    (h : d.length ≤ g.queue.length) :
    (g.validate d).isOk = true ↔ g.queue.take d.length = d := by
  rw [validate_of_le g d h]
  by_cases he : g.queue.take d.length = d <;> simp [he, ValidateResult.isOk]

/-! ### Per-call claims -/

/-- C10: `validate` on an empty byte sequence (the case exercised when
the rx loop's `read` returns zero bytes) always succeeds and leaves
the backlog exactly unchanged, for every `Generator` state. -/
theorem C10_validate_empty (g : Generator) :
    g.validate [] = .ok g := by
  simp [Generator.validate]

/-- C3: every `generate()` call returns the fixed 100-byte all-zero
chunk, appends exactly a copy of it to the tail of the backlog, never
fails (it is a total function), the backlog grows by exactly the chunk
size, and no previously backlogged byte is changed. -/
theorem C3_generate_appends (g : Generator) :
    (g.generate).1 = List.replicate 100 0 ∧
    (g.generate).1.length = 100 ∧
    (g.generate).2.queue = g.queue ++ (g.generate).1 ∧
    (g.generate).2.queue.length = g.queue.length + 100 ∧
    (g.generate).2.queue.take g.queue.length = g.queue := by
  refine ⟨rfl, rfl, rfl, ?_, ?_⟩
  · simp [Generator.generate, chunk, CHUNK_SIZE]
  · exact List.take_left g.queue chunk

/-- C6: frame property — `generate` never alters a byte already in the
backlog (it only appends), and `validate` on a correct prefix of the
backlog removes exactly that prefix, leaving every byte after it
unchanged and in place. -/
theorem C6_frame (g : Generator) (d rest : List Nat)
    (h : g.queue = d ++ rest) :
    (g.generate).2.queue.take g.queue.length = g.queue ∧
    g.validate d = .ok ⟨rest⟩ := by
  constructor
  · exact List.take_left g.queue chunk
  · have hle : d.length ≤ g.queue.length := by
      rw [h, List.length_append]; omega
    rw [validate_of_le g d hle, h]
    simp [List.take_left, List.drop_left]

/-- Witness for C6 at a concrete state: backlog `[1,2,3]`, validating
the prefix `[1,2]` leaves `[3]`. -/
theorem C6_frame_witness :
    (Generator.generate ⟨[1, 2, 3]⟩).2.queue.take 3 = [1, 2, 3] ∧
    Generator.validate ⟨[1, 2, 3]⟩ [1, 2] = .ok ⟨[3]⟩ :=
  C6_frame ⟨[1, 2, 3]⟩ [1, 2] [3] rfl

/-- C9: when `len(received) ≤ backlog`, `validate` removes exactly
`len(received)` bytes from the head regardless of the outcome; in
particular a mismatching call on nonempty data does not leave the
state unchanged (the compared bytes were already drained). -/
theorem C9_drain_on_error (g : Generator) (d : List Nat)
    (h : d.length ≤ g.queue.length) :
    (g.validate d).state = some ⟨g.queue.drop d.length⟩ ∧
    (d ≠ [] → (g.validate d).state ≠ some g) := by
  have hstate : (g.validate d).state = some ⟨g.queue.drop d.length⟩ := by
    rw [validate_of_le g d h]
    by_cases he : g.queue.take d.length = d <;> simp [he, ValidateResult.state]
  refine ⟨hstate, fun hne hcontra => ?_⟩
  rw [hstate] at hcontra
  have hq : g.queue.drop d.length = g.queue := congrArg Generator.queue (Option.some.inj hcontra)
  have hlen : g.queue.length - d.length = g.queue.length := by
    calc g.queue.length - d.length = (g.queue.drop d.length).length := (List.length_drop _ _).symm
    _ = g.queue.length := by rw [hq]
  have : d.length = 0 := by omega
  exact hne (List.eq_nil_of_length_eq_zero this)

/-- Witness for C9 at a concrete state: backlog `[5]`, validating the
mismatching byte `[7]` still drains the backlog. -/
theorem C9_drain_on_error_witness :
    (Generator.validate ⟨[5]⟩ [7]).state = some ⟨[]⟩ ∧
    ([7] ≠ ([] : List Nat) → (Generator.validate ⟨[5]⟩ [7]).state ≠ some ⟨[5]⟩) :=
  C9_drain_on_error ⟨[5]⟩ [7] (by decide)

/-- C2 (code bug in `Generator::validate`): supplying more bytes than
are backlogged does not return a `MismatchError` — the
`self.queue.drain(0..data.len())` call panics (`VecDeque::drain`
panics when the range end exceeds the deque length), so the process
aborts instead of reporting an error result. The comparison is not
silently truncated, but the spec's required error return does not
happen. -/
theorem C2_under_supply_panics (g : Generator) (d : List Nat)
    (h : g.queue.length < d.length) :
    g.validate d = .panic :=
  (validate_eq_panic_iff g d).2 h

/-- Witness for C2 at the concrete failing input: a fresh generator
(empty backlog) and a single received byte. -/
theorem C2_under_supply_panics_witness :
    Generator.create.queue.length < ([0] : List Nat).length ∧
    Generator.create.validate [0] = .panic :=
  ⟨by decide, C2_under_supply_panics Generator.create [0] (by decide)⟩

/-! ### The transmit and receive worker loops

The two loops of `GenericDevice::create` are embedded as step
functions over per-iteration environment inputs.  One list element is
one loop iteration: one bounded transport I/O call (write_all with its
write timeout on the tx side, read with its read timeout on the rx
side) followed by the stop-flag check and the 1 ms pacing sleep.

Tx loop body (src/main.rs lines 65–75): lock and `generate()`, then
`write_all(&data)`; on any write error (including a partial write,
which `write_all` converts into `ErrorKind::WriteZero`) the closure
prints `Tx error: ...` and calls `exit(1)` — the fault is reported and
the loop (indeed the whole process) terminates.  Otherwise the stop
flag is checked (`break` when set) and the loop sleeps 1 ms.

Rx loop body (lines 86–100): `read` into a 2048-byte buffer; on
`Ok(n)` the n bytes are passed to `validate(..).unwrap()` (a mismatch
panics the rx thread); on `Err` (timeout — no data this tick) nothing
happens.  Then the stop flag is checked (`break` when set), then the
throughput window is reported and the byte counter reset if a second
has elapsed, then a 1 ms sleep. -/

/-- Environment of one tx-loop iteration: whether `write_all`
succeeded, and the value read from the stop flag. -/
structure TxInput where
  writeOk : Bool
  stop : Bool
deriving DecidableEq, Repr

/-- Result of one tx-loop iteration. `fault` means the write failed:
`Tx error` was printed and `exit(1)` called. -/
inductive TxStep where
  | proceed (g : Generator)
  | stopped (g : Generator)
  | fault (g : Generator)
deriving DecidableEq, Repr

/-- One iteration of the tx loop: `generate()` then `write_all`, then
the stop-flag check. -/
def txLoopBody (g : Generator) (i : TxInput) : TxStep :=
  let p := g.generate
  if !i.writeOk then .fault p.2
  else if i.stop then .stopped p.2
  else .proceed p.2

/-- Outcome of running the tx loop against a finite trace of
environment inputs. `running` means the trace was exhausted with the
loop still iterating. -/
inductive TxResult where
  | running (g : Generator)
  | stopped (g : Generator)
  | fault (g : Generator)
deriving DecidableEq, Repr

/-- Run the tx loop over a trace of inputs, returning the outcome and
the number of iterations executed. -/
def txRun : Generator → List TxInput → TxResult × Nat
  | g, [] => (.running g, 0)
  | g, i :: rest =>
    match txLoopBody g i with
    | .proceed g' => let r := txRun g' rest; (r.1, r.2 + 1)
    | .stopped g' => (.stopped g', 1)
    | .fault g' => (.fault g', 1)

/-- Environment of one rx-loop iteration: the bytes delivered by
`read` (`none` = `Err`, i.e. timeout/no data this tick), the value
read from the stop flag, and whether the 1-second throughput window
elapsed at this iteration's check. -/
structure RxInput where
  received : Option (List Nat)
  stop : Bool
  windowElapsed : Bool

/-- Result of one rx-loop iteration: continue (with new generator
state and byte counter), break out of the loop, or a panic of the rx
thread from `validate(..).unwrap()`. -/
inductive RxStep where
  | proceed (g : Generator) (bytes : Nat)
  | stopped (g : Generator)
  | panicked
deriving DecidableEq, Repr

/-- One iteration of the rx loop: optional read+validate, stop-flag
check, throughput-window report/reset. -/
def rxLoopBody (g : Generator) (bytes : Nat) (i : RxInput) : RxStep :=
  match i.received with
  | some d =>
    match g.validate d with
    | .ok g' =>
      if i.stop then .stopped g'
      else .proceed g' (if i.windowElapsed then 0 else bytes + d.length)
    | _ => .panicked
  | none =>
    if i.stop then .stopped g
    else .proceed g (if i.windowElapsed then 0 else bytes)

/-- Outcome of running the rx loop against a finite trace of inputs. -/
inductive RxResult where
  | running (g : Generator) (bytes : Nat)
  | stopped (g : Generator)
  | panicked
deriving DecidableEq, Repr

/-- Run the rx loop over a trace of inputs, returning the outcome and
the number of iterations executed. -/
def rxRun : Generator → Nat → List RxInput → RxResult × Nat
  | g, bytes, [] => (.running g bytes, 0)
  | g, bytes, i :: rest =>
    match rxLoopBody g bytes i with
    | .proceed g' bytes' => let r := rxRun g' bytes' rest; (r.1, r.2 + 1)
    | .stopped g' => (.stopped g', 1)
    | .panicked => (.panicked, 1)

/-- C7: when the write of a generated chunk fails (or is partial —
`write_all` turns a partial write into an error), the tx loop body
ends in the `fault` outcome: the fault is reported (`Tx error`
printed) and the process exits with status 1, so the transmit loop
terminates for this session and in particular never silently
continues to the next iteration, whatever the stop flag says. -/
theorem C7_write_fault_terminates (g : Generator) (s : Bool) :
    txLoopBody g ⟨false, s⟩ = .fault (g.generate).2 ∧
    ∀ g', txLoopBody g ⟨false, s⟩ ≠ .proceed g' := by
  constructor
  · rfl
  · intro g' h
    exact TxStep.noConfusion h

/-- C8: once the shutdown flag reads true, each loop terminates within
the iteration at which it observes the flag — the run consumes exactly
one more iteration (one bounded I/O call plus one polling interval)
and its outcome is never `running`, i.e. both worker loop functions
return, so joining the two worker threads returns with both exited. -/
theorem C8_shutdown_observed (g : Generator) (bytes : Nat)
    (i : TxInput) (j : RxInput) (txs : List TxInput) (rxs : List RxInput)
    (hi : i.stop = true) (hj : j.stop = true) :
    (txRun g (i :: txs)).2 = 1 ∧
    (∀ g', (txRun g (i :: txs)).1 ≠ TxResult.running g') ∧
    (rxRun g bytes (j :: rxs)).2 = 1 ∧
    (∀ g' b, (rxRun g bytes (j :: rxs)).1 ≠ RxResult.running g' b) := by
  obtain ⟨w, s⟩ := i
  obtain ⟨recv, s', win⟩ := j
  cases hi
  cases hj
  have htx : ∀ p, (txRun g (⟨w, true⟩ :: txs)).1 ≠ TxResult.running p ∧
      (txRun g (⟨w, true⟩ :: txs)).2 = 1 := by
    intro p
    cases w <;> simp [txRun, txLoopBody]
  have hrx : ∀ p b, (rxRun g bytes (⟨recv, true, win⟩ :: rxs)).1 ≠ RxResult.running p b ∧
      (rxRun g bytes (⟨recv, true, win⟩ :: rxs)).2 = 1 := by
    intro p b
    cases recv with
    | none => simp [rxRun, rxLoopBody]
    | some d =>
      cases h : g.validate d <;> simp [rxRun, rxLoopBody, h]
  exact ⟨(htx g).2, fun g' => (htx g').1, (hrx g 0).2, fun g' b => (hrx g' b).1⟩

/-- Witness for C8 at a concrete run: one tx iteration with a
successful write and the stop flag set, one rx iteration with no data
and the stop flag set. -/
theorem C8_shutdown_observed_witness :
    (txRun Generator.create [⟨true, true⟩]).2 = 1 ∧
    (∀ g', (txRun Generator.create [⟨true, true⟩]).1 ≠ TxResult.running g') ∧
    (rxRun Generator.create 0 [⟨none, true, false⟩]).2 = 1 ∧
    (∀ g' b, (rxRun Generator.create 0 [⟨none, true, false⟩]).1 ≠ RxResult.running g' b) :=
  C8_shutdown_observed Generator.create 0 ⟨true, true⟩ ⟨none, true, false⟩ [] [] rfl rfl

/-! ### Trace-level invariants of the generator -/

theorem runSeq_nil (g : Generator) : runSeq g [] = some g := rfl

theorem runSeq_cons_gen (g : Generator) (rest : List Op) :
    runSeq g (.gen :: rest) = runSeq (g.generate).2 rest := rfl

theorem runSeq_cons_val (g : Generator) (d : List Nat) (rest : List Op) :
    runSeq g (.val d :: rest) =
      match g.validate d with
      | .ok g' => runSeq g' rest
      | .mismatch g' => runSeq g' rest
      | .panic => none := rfl

theorem runOk_nil (g : Generator) : runOk g [] = some g := rfl

theorem runOk_cons_gen (g : Generator) (rest : List Op) :
    runOk g (.gen :: rest) = runOk (g.generate).2 rest := rfl

theorem runOk_cons_val (g : Generator) (d : List Nat) (rest : List Op) :
    runOk g (.val d :: rest) =
      match g.validate d with
      | .ok g' => runOk g' rest
      | _ => none := rfl

/-- A run with every `validate` succeeding is in particular a run in
which no `validate` panics. -/
theorem runOk_imp_runSeq (ops : List Op) :
    ∀ (g g' : Generator), runOk g ops = some g' → runSeq g ops = some g' := by
  induction ops with
  | nil => intro g g' h; exact h
  | cons op rest ih =>
    intro g g' h
    cases op with
    | gen =>
      rw [runOk_cons_gen] at h
      rw [runSeq_cons_gen]
      exact ih _ _ h
    | val d =>
      rw [runOk_cons_val] at h
      rw [runSeq_cons_val]
      cases hv : g.validate d <;> rw [hv] at h
      · exact ih _ _ h
      · exact absurd h (by simp)
      · exact absurd h (by simp)

/-- Backlog characterisation: after any non-panicking run, the backlog
is the initial contents followed by every produced byte, with the
total number of validated bytes removed from the front. -/
theorem runSeq_queue (ops : List Op) :
    ∀ (q : List Nat) (g : Generator), runSeq ⟨q⟩ ops = some g →
      g.queue = (q ++ producedBytes ops).drop (validatedLen ops) := by
  induction ops with
  | nil =>
    intro q g h
    rw [runSeq_nil] at h
    cases h
    simp [producedBytes, validatedLen]
  | cons op rest ih =>
    intro q g h
    cases op with
    | gen =>
      rw [runSeq_cons_gen] at h
      have := ih (q ++ chunk) g h
      rw [this]
      simp [producedBytes, validatedLen, List.append_assoc]
    | val d =>
      by_cases hle : d.length ≤ q.length
      · rw [runSeq_cons_val] at h
        by_cases he : q.take d.length = d
        · have hv : Generator.validate ⟨q⟩ d = .ok ⟨q.drop d.length⟩ := by
            rw [validate_of_le ⟨q⟩ d hle]
            simp only [he, if_true]
          rw [hv] at h
          have := ih (q.drop d.length) g h
          rw [this]
          simp only [producedBytes, validatedLen]
          rw [← List.drop_append_of_le_length hle, List.drop_drop]
        · have hv : Generator.validate ⟨q⟩ d = .mismatch ⟨q.drop d.length⟩ := by
            rw [validate_of_le ⟨q⟩ d hle]
            simp only [he, if_false]
          rw [hv] at h
          have := ih (q.drop d.length) g h
          rw [this]
          simp only [producedBytes, validatedLen]
          rw [← List.drop_append_of_le_length hle, List.drop_drop]
      · have hv : Generator.validate ⟨q⟩ d = .panic :=
          (validate_eq_panic_iff ⟨q⟩ d).2 (by simpa using Nat.lt_of_not_le hle)
        rw [runSeq_cons_val, hv] at h
        exact absurd h (by simp)

/-- Every byte ever produced by `generate` is zero. -/
theorem producedBytes_zero (ops : List Op) :
    ∀ b ∈ producedBytes ops, b = 0 := by
  induction ops with
  | nil => intro b hb; simp [producedBytes] at hb
  | cons op rest ih =>
    intro b hb
    cases op with
    | gen =>
      simp only [producedBytes, List.mem_append] at hb
      rcases hb with hb | hb
      · simpa [chunk] using List.eq_of_mem_replicate hb
      · exact ih b hb
    | val d => exact ih b (by simpa [producedBytes] using hb)

/-- Every backlog reachable from a fresh generator is all zeros. -/
theorem runSeq_create_zero (ops : List Op) (g : Generator)
    (h : runSeq Generator.create ops = some g) :
    ∀ b ∈ g.queue, b = 0 := by
  intro b hb
  have hq := runSeq_queue ops [] g h
  rw [hq] at hb
  exact producedBytes_zero ops b (by simpa using List.mem_of_mem_drop hb)

/-- C4: after any sequence of `generate` calls and successful
`validate` calls from a fresh generator, the backlog is exactly the
produced-but-not-yet-validated bytes in production order — the
produced byte stream with the validated byte count dropped from its
head (FIFO consumption). -/
theorem C4_backlog_fifo (ops : List Op) (g : Generator)
    (h : runOk Generator.create ops = some g) :
    g.queue = (producedBytes ops).drop (validatedLen ops) := by
  have := runSeq_queue ops [] g (runOk_imp_runSeq ops _ _ h)
  simpa using this

/-- Witness for C4 on the concrete trace generate-then-validate of one
full chunk. -/
theorem C4_backlog_fifo_witness :
    runOk Generator.create [Op.gen, Op.val chunk] = some ⟨[]⟩ ∧
    (⟨[]⟩ : Generator).queue =
      (producedBytes [Op.gen, Op.val chunk]).drop (validatedLen [Op.gen, Op.val chunk]) :=
  ⟨by decide, C4_backlog_fifo [Op.gen, Op.val chunk] ⟨[]⟩ (by decide)⟩

/-- Setting index `j < CHUNK_SIZE` of the all-zero chunk to a nonzero
byte yields a list different from any all-zero list. -/
theorem set_chunk_ne_replicate (j b n : Nat) (hj : j < CHUNK_SIZE) (hb : b ≠ 0) :
    List.replicate n 0 ≠ chunk.set j b := by
  intro hcontra
  have hget := congrArg (fun l => l[j]?) hcontra
  have hjc : j < chunk.length := by simpa [chunk] using hj
  have hn : j < n := by
    have := congrArg List.length hcontra
    simp [chunk] at this
    omega
  simp only [List.getElem?_replicate, List.getElem?_set_self, hjc, hn, if_true] at hget
  exact hb (Option.some.inj hget).symm

/-- C1: in any state reached by a sequence of `generate`/`validate`
calls none of which requests more bytes than are backlogged, a
`validate(received)` call with `received` no longer than the backlog
succeeds iff `received` equals, byte for byte and in order, the oldest
`len(received)` produced-but-not-yet-validated bytes; and flipping any
single byte of a freshly generated chunk before validating it makes
`validate` fail. -/
theorem C1_validate_success_iff (ops : List Op) (g : Generator)
    (h : runSeq Generator.create ops = some g) (d : List Nat)
    (hlen : d.length ≤ g.queue.length) :
    ((g.validate d).isOk = true ↔
      d = ((producedBytes ops).drop (validatedLen ops)).take d.length) ∧
    (∀ j b, j < CHUNK_SIZE → b ≠ 0 →
      ((g.generate).2.validate (chunk.set j b)).isOk = false) := by
  have hq : g.queue = (producedBytes ops).drop (validatedLen ops) := by
    simpa using runSeq_queue ops [] g h
  constructor
  · rw [validate_isOk_iff g d hlen, hq, eq_comm]
  · intro j b hj hb
    have hz := runSeq_create_zero ops g h
    have hrep : g.queue = List.replicate g.queue.length 0 :=
      List.eq_replicate_iff.2 ⟨rfl, hz⟩
    have hq2 : (g.generate).2.queue = List.replicate (g.queue.length + CHUNK_SIZE) 0 := by
      show g.queue ++ chunk = _
      nth_rewrite 1 [hrep]
      rw [List.replicate_add g.queue.length CHUNK_SIZE 0]
      rfl
    have hsetlen : (chunk.set j b).length = CHUNK_SIZE := by
      simp [chunk]
    have hlen2 : (chunk.set j b).length ≤ (g.generate).2.queue.length := by
      rw [hq2, hsetlen, List.length_replicate]
      omega
    cases hok : ((g.generate).2.validate (chunk.set j b)).isOk with
    | false => rfl
    | true =>
      exfalso
      have htake := (validate_isOk_iff _ _ hlen2).1 hok
      rw [hq2, hsetlen, List.take_replicate] at htake
      exact set_chunk_ne_replicate j b _ hj hb htake

/-- Witness for C1 on the concrete trace of one `generate` call. -/
theorem C1_validate_success_iff_witness :
    ((Generator.validate ⟨chunk⟩ [0, 0]).isOk = true ↔
      [0, 0] = ((producedBytes [Op.gen]).drop (validatedLen [Op.gen])).take
        ([0, 0] : List Nat).length) ∧
    (∀ j b, j < CHUNK_SIZE → b ≠ 0 →
      ((Generator.generate ⟨chunk⟩).2.validate (chunk.set j b)).isOk = false) :=
  C1_validate_success_iff [Op.gen] ⟨chunk⟩ (by decide) [0, 0] (by decide)

theorem validateAll_cons (g : Generator) (d : List Nat) (ds : List (List Nat)) :
    validateAll g (d :: ds) =
      match g.validate d with
      | .ok g' => validateAll g' ds
      | _ => none := rfl

/-- Validating a sequence of all-zero sub-slices against an all-zero
backlog long enough to cover them succeeds at every step and drains
exactly their total length from the head. -/
theorem validateAll_zeros (ds : List (List Nat)) :
    ∀ (q : List Nat), (∀ b ∈ q, b = 0) → (∀ d ∈ ds, ∀ b ∈ d, b = 0) →
      ds.flatten.length ≤ q.length →
      validateAll ⟨q⟩ ds = some ⟨q.drop ds.flatten.length⟩ := by
  induction ds with
  | nil =>
    intro q _ _ _
    simp [validateAll]
  | cons d ds ih =>
    intro q hq hds hlen
    rw [List.flatten_cons, List.length_append] at hlen
    have hdlen : d.length ≤ q.length := by omega
    have htake : q.take d.length = d := by
      have h1 : q.take d.length = List.replicate d.length 0 :=
        List.eq_replicate_iff.2
          ⟨by rw [List.length_take]; omega,
           fun b hb => hq b (List.mem_of_mem_take hb)⟩
      have h2 : d = List.replicate d.length 0 :=
        List.eq_replicate_iff.2 ⟨rfl, fun b hb => hds d (List.mem_cons_self d ds) b hb⟩
      rw [h1]
      exact h2.symm
    have hv : Generator.validate ⟨q⟩ d = .ok ⟨q.drop d.length⟩ := by
      rw [validate_of_le ⟨q⟩ d hdlen]
      simp only [htake, if_true]
    rw [validateAll_cons, hv]
    show validateAll ⟨q.drop d.length⟩ ds = some ⟨q.drop (d :: ds).flatten.length⟩
    have ih' := ih (q.drop d.length)
      (fun b hb => hq b (List.mem_of_mem_drop hb))
      (fun d' hd' => hds d' (List.mem_cons_of_mem d hd'))
      (by rw [List.length_drop]; omega)
    rw [ih', List.drop_drop, List.flatten_cons, List.length_append]

/-- C5: round-trip — from any state the program can put a generator in
(an all-zero backlog), generating a chunk and then validating those
same bytes split into consecutive sub-slices covering exactly the
chunk succeeds on every `validate` call and leaves the backlog exactly
as it was before the `generate`. -/
theorem C5_roundtrip (g : Generator) (hz : ∀ b ∈ g.queue, b = 0)
    (ds : List (List Nat)) (hds : ds.flatten = (g.generate).1) :
    validateAll (g.generate).2 ds = some g := by
  obtain ⟨q⟩ := g
  have hchunk : chunk = List.replicate CHUNK_SIZE 0 := rfl
  have hall : ∀ d ∈ ds, ∀ b ∈ d, b = 0 := by
    intro d hd b hb
    have hbf : b ∈ ds.flatten := List.mem_flatten.2 ⟨d, hd, hb⟩
    rw [hds] at hbf
    simpa [Generator.generate, chunk] using List.eq_of_mem_replicate hbf
  have hzq : ∀ b ∈ q ++ chunk, b = 0 := by
    intro b hb
    rcases List.mem_append.1 hb with hb | hb
    · exact hz b hb
    · simpa [chunk] using List.eq_of_mem_replicate hb
  have hlenf : ds.flatten.length = CHUNK_SIZE := by
    rw [hds]
    simp [Generator.generate, chunk]
  have hle : ds.flatten.length ≤ (q ++ chunk).length := by
    rw [hlenf]
    simp only [List.length_append, chunk, List.length_replicate]
    omega
  have hrun := validateAll_zeros ds (q ++ chunk) hzq hall hle
  show validateAll ⟨q ++ chunk⟩ ds = some ⟨q⟩
  rw [hrun]
  have hrep : q = List.replicate q.length 0 := List.eq_replicate_iff.2 ⟨rfl, hz⟩
  have hdropped : (q ++ chunk).drop ds.flatten.length = q := by
    rw [hlenf]
    nth_rewrite 1 [hrep]
    rw [hchunk, ← List.replicate_add q.length CHUNK_SIZE 0, List.drop_replicate,
      Nat.add_sub_cancel q.length CHUNK_SIZE]
    exact hrep.symm
  rw [hdropped]

/-- Witness for C5 at a fresh generator, splitting the chunk into a
40-byte and a 60-byte sub-slice. -/
theorem C5_roundtrip_witness :
    (∀ b ∈ (⟨[]⟩ : Generator).queue, b = 0) ∧
    ([List.replicate 40 0, List.replicate 60 0] : List (List Nat)).flatten =
      (Generator.generate ⟨[]⟩).1 ∧
    validateAll (Generator.generate ⟨[]⟩).2 [List.replicate 40 0, List.replicate 60 0] =
      some ⟨[]⟩ :=
  ⟨by decide, by decide,
    C5_roundtrip ⟨[]⟩ (by decide) [List.replicate 40 0, List.replicate 60 0] (by decide)⟩
